import Mathlib

/-!
Verification development for the rmz-storefront-sdk request-authentication
and transport-resilience core.  Byte strings are modelled as `List Nat`
(each element an octet / ASCII code); 32-bit machine words are `Nat`
with explicit reduction modulo `2^32`.
-/

set_option maxRecDepth 4096

namespace RmzSDK

/-! ### 32-bit word arithmetic -/

def w32mod : Nat := 4294967296

def add32 (a b : Nat) : Nat := (a + b) % w32mod

def rotr32 (n x : Nat) : Nat := (x / 2 ^ n + (x % 2 ^ n) * 2 ^ (32 - n)) % w32mod

def shr32 (n x : Nat) : Nat := x / 2 ^ n

def not32 (x : Nat) : Nat := 4294967295 - x % w32mod

def chF (x y z : Nat) : Nat := (x &&& y) ^^^ (not32 x &&& z)

def majF (x y z : Nat) : Nat := (x &&& y) ^^^ (x &&& z) ^^^ (y &&& z)

def bigS0 (x : Nat) : Nat := rotr32 2 x ^^^ rotr32 13 x ^^^ rotr32 22 x

def bigS1 (x : Nat) : Nat := rotr32 6 x ^^^ rotr32 11 x ^^^ rotr32 25 x

def smallS0 (x : Nat) : Nat := rotr32 7 x ^^^ rotr32 18 x ^^^ shr32 3 x

def smallS1 (x : Nat) : Nat := rotr32 17 x ^^^ rotr32 19 x ^^^ shr32 10 x

/-! ### SHA-256 -/

def shaK : List Nat :=
  [1116352408, 1899447441, 3049323471, 3921009573, 961987163, 1508970993,
   2453635748, 2870763221, 3624381080, 310598401, 607225278, 1426881987,
   1925078388, 2162078206, 2614888103, 3248222580, 3835390401, 4022224774,
   264347078, 604807628, 770255983, 1249150122, 1555081692, 1996064986,
   2554220882, 2821834349, 2952996808, 3210313671, 3336571891, 3584528711,
   113926993, 338241895, 666307205, 773529912, 1294757372, 1396182291,
   1695183700, 1986661051, 2177026350, 2456956037, 2730485921, 2820302411,
   3259730800, 3345764771, 3516065817, 3600352804, 4094571909, 275423344,
   430227734, 506948616, 659060556, 883997877, 958139571, 1322822218,
   1537002063, 1747873779, 1955562222, 2024104815, 2227730452, 2361852424,
   2428436474, 2756734187, 3204031479, 3329325298]

structure Hash8 where
  a : Nat
  b : Nat
  c : Nat
  d : Nat
  e : Nat
  f : Nat
  g : Nat
  h : Nat

def initH : Hash8 :=
  ⟨1779033703, 3144134277, 1013904242, 2773480762,
   1359893119, 2600822924, 528734635, 1541459225⟩

/-- Big-endian 8-byte encoding of the bit length. -/
def lenBytes (bitLen : Nat) : List Nat :=
  [bitLen / 2 ^ 56 % 256, bitLen / 2 ^ 48 % 256, bitLen / 2 ^ 40 % 256,
   bitLen / 2 ^ 32 % 256, bitLen / 2 ^ 24 % 256, bitLen / 2 ^ 16 % 256,
   bitLen / 2 ^ 8 % 256, bitLen % 256]

/-- SHA-256 padding: append 0x80, zeros, and the 64-bit big-endian length. -/
def padMsg (ms : List Nat) : List Nat :=
  ms ++ [128] ++ List.replicate ((64 - (ms.length + 9) % 64) % 64) 0
     ++ lenBytes (8 * ms.length)

/-- Group bytes into big-endian 32-bit words (fuel = number of words). -/
def bytesToWords : Nat → List Nat → List Nat
  | 0, _ => []
  | n + 1, bs =>
      (((bs.getD 0 0 * 256 + bs.getD 1 0) * 256 + bs.getD 2 0) * 256 + bs.getD 3 0)
        :: bytesToWords n (bs.drop 4)

/-- Split a word list into 16-word blocks (fuel = number of blocks). -/
def chunkWords : Nat → List Nat → List (List Nat)
  | 0, _ => []
  | n + 1, ws => ws.take 16 :: chunkWords n (ws.drop 16)

/-- One message-schedule extension step over a sliding 16-word window. -/
def scheduleStep (window : List Nat) : Nat :=
  add32 (add32 (smallS1 (window.getD 14 0)) (window.getD 9 0))
        (add32 (smallS0 (window.getD 1 0)) (window.getD 0 0))

/-- Produce `fuel` additional schedule words. -/
def extendSchedule : Nat → List Nat → List Nat
  | 0, _ => []
  | n + 1, window =>
      let nw := scheduleStep window
      nw :: extendSchedule n (window.drop 1 ++ [nw])

/-- One SHA-256 round: `kw` is the pair (round constant, schedule word). -/
def shaRound (st : Hash8) (kw : Nat × Nat) : Hash8 :=
  let t1 := add32 (add32 (add32 st.h (bigS1 st.e))
                         (add32 (chF st.e st.f st.g) kw.1)) kw.2
  let t2 := add32 (bigS0 st.a) (majF st.a st.b st.c)
  ⟨add32 t1 t2, st.a, st.b, st.c, add32 st.d t1, st.e, st.f, st.g⟩

/-- Compress one 16-word block into the running hash state. -/
def compressBlock (st : Hash8) (block : List Nat) : Hash8 :=
  let ws := block ++ extendSchedule 48 block
  let fin := (shaK.zip ws).foldl shaRound st
  ⟨add32 st.a fin.a, add32 st.b fin.b, add32 st.c fin.c, add32 st.d fin.d,
   add32 st.e fin.e, add32 st.f fin.f, add32 st.g fin.g, add32 st.h fin.h⟩

def wordBytes (w : Nat) : List Nat :=
  [w / 2 ^ 24 % 256, w / 2 ^ 16 % 256, w / 2 ^ 8 % 256, w % 256]

/-- SHA-256 of a byte string, as 32 bytes. -/
def sha256 (ms : List Nat) : List Nat :=
  let padded := padMsg ms
  let ws := bytesToWords (padded.length / 4) padded
  let st := (chunkWords (ws.length / 16) ws).foldl compressBlock initH
  wordBytes st.a ++ wordBytes st.b ++ wordBytes st.c ++ wordBytes st.d ++
  wordBytes st.e ++ wordBytes st.f ++ wordBytes st.g ++ wordBytes st.h

/-- Lower-case hex digit as ASCII code. -/
def hexDigit (n : Nat) : Nat := if n < 10 then 48 + n else 87 + n

/-- Lower-case hex encoding of bytes, as ASCII codes. -/
def hexOfBytes (bs : List Nat) : List Nat :=
  bs.foldr (fun b acc => hexDigit (b / 16 % 16) :: hexDigit (b % 16) :: acc) []

/-- HMAC-SHA256 (RFC 2104) of a message under a key, as 32 bytes. -/
def hmacSha256 (key msg : List Nat) : List Nat :=
  let k0 := if 64 < key.length then sha256 key else key
  let kp := k0 ++ List.replicate (64 - k0.length) 0
  sha256 ((kp.map (fun b => b ^^^ 92)) ++
    sha256 ((kp.map (fun b => b ^^^ 54)) ++ msg))

/-- ASCII codes of a string (all source strings involved are ASCII,
    where ASCII codes coincide with the UTF-8 bytes hashed by the code). -/
def asciiOf (s : String) : List Nat := s.data.map Char.toNat

/-! ### Request signer (src SecurityManager / HttpClient)

`SecurityManager.generateSignatureSync` builds
`[signatureVersion, timestamp, method.toUpperCase(), path, sha256hex(body)].join('\n')`
and returns the hex HMAC-SHA256 of that payload under the secret key.
Text is modelled as ASCII byte lists; `timestampTolerance` defaults to 300
and `signatureVersion` to "v1" in the source constructor. -/

structure SecurityConfig where
  signatureVersion : List Nat
  secretKey : List Nat
  timestampTolerance : Nat

/-- JS `toUpperCase` restricted to ASCII. -/
def upperByte (b : Nat) : Nat := if 97 ≤ b ∧ b ≤ 122 then b - 32 else b

def upperBytes (s : List Nat) : List Nat := s.map upperByte

/-- `'\n'.join` of the payload parts. -/
def joinNL (parts : List (List Nat)) : List Nat := List.intercalate [10] parts

/-- `SecurityManager.generateSignatureSync` (src/unnamed/part_003, lines 196-220). -/
def generateSignatureSync (cfg : SecurityConfig)
    (timestamp method path body : List Nat) : List Nat :=
  let payload := joinNL
    [cfg.signatureVersion, timestamp, upperBytes method, path,
     hexOfBytes (sha256 body)]
  hexOfBytes (hmacSha256 cfg.secretKey payload)

/-- The fixed `SIGNATURE_VERSION = 'v1'` of the legacy HttpClient. -/
def signatureVersionV1 : List Nat := asciiOf "v1"

/-- `HttpClient.generateSignature` (src/unnamed/part_002, lines 55-70);
    the scheme version is the fixed constant `'v1'`. -/
def httpClientGenerateSignature (secretKey : List Nat)
    (timestamp method path body : List Nat) : List Nat :=
  let payload := joinNL
    [signatureVersionV1, timestamp, upperBytes method, path,
     hexOfBytes (sha256 body)]
  hexOfBytes (hmacSha256 secretKey payload)

/-- The signature formula exactly as the specification words it:
    hex HMAC-SHA256, keyed by the secret, of the newline-join of the scheme
    version, the timestamp, the upper-cased method, the path, and the hex
    SHA-256 of the body string.  Stated separately from the source-derived
    definitions so the two can be compared. -/
def specSignature (schemeVersion secret timestamp method path body : List Nat) :
    List Nat :=
  hexOfBytes (hmacSha256 secret
    (joinNL [schemeVersion, timestamp, upperBytes method, path,
             hexOfBytes (sha256 body)]))

/-- `SecurityManager.constantTimeCompare` (src/unnamed/part_003, lines 287-298):
    equal-length check, then OR-accumulation of per-position XOR. -/
def constantTimeCompare (a b : List Nat) : Bool :=
  if a.length ≠ b.length then false
  else ((List.zipWith (fun x y => x ^^^ y) a b).foldl (fun r x => r ||| x) 0) == 0

/-- Decimal digits of a natural number as ASCII codes (fuel-based). -/
def decDigits : Nat → Nat → List Nat
  | 0, _ => []
  | fuel + 1, n => if n < 10 then [48 + n] else decDigits fuel (n / 10) ++ [48 + n % 10]

def decBytes (n : Nat) : List Nat := decDigits (n + 1) n

def absDiff (a b : Nat) : Nat := if a ≤ b then b - a else a - b

/-- `SecurityManager.verifySignature` (src/unnamed/part_003, lines 115-140):
    rejects when `|now - timestamp| > timestampTolerance`, otherwise
    constant-time-compares against the recomputed signature.  The decimal
    timestamp string (`parseInt` in the source) is modelled by its numeric
    value `t`, whose string form is `decBytes t`. -/
def verifySignature (cfg : SecurityConfig) (now : Nat) (signature : List Nat)
    (t : Nat) (method path body : List Nat) : Bool :=
  if cfg.timestampTolerance < absDiff now t then false
  else constantTimeCompare signature
    (generateSignatureSync cfg (decBytes t) method path body)

/-! ### Supporting lemmas for constant-time comparison -/

theorem lor_eq_zero_iff (a b : Nat) : a ||| b = 0 ↔ a = 0 ∧ b = 0 := by
  constructor
  · intro h
    constructor
    · refine Nat.eq_of_testBit_eq fun i => ?_
      have hb := congrArg (fun n => Nat.testBit n i) h
      simp only [Nat.testBit_lor, Nat.zero_testBit, Bool.or_eq_false_iff] at hb
      simp [hb.1]
    · refine Nat.eq_of_testBit_eq fun i => ?_
      have hb := congrArg (fun n => Nat.testBit n i) h
      simp only [Nat.testBit_lor, Nat.zero_testBit, Bool.or_eq_false_iff] at hb
      simp [hb.2]
  · rintro ⟨rfl, rfl⟩
    rfl

theorem foldl_lor_eq_zero (l : List Nat) (acc : Nat) :
    (l.foldl (fun r x => r ||| x) acc = 0) ↔ (acc = 0 ∧ ∀ x ∈ l, x = 0) := by
  induction l generalizing acc with
  | nil => simp
  | cons y ys ih =>
    simp only [List.foldl_cons, ih, lor_eq_zero_iff, List.mem_cons]
    constructor
    · rintro ⟨⟨h1, h2⟩, h3⟩
      exact ⟨h1, fun x hx => hx.elim (fun hxy => hxy ▸ h2) (h3 x)⟩
    · rintro ⟨h1, h2⟩
      exact ⟨⟨h1, h2 y (Or.inl rfl)⟩, fun x hx => h2 x (Or.inr hx)⟩

theorem zipWith_xor_zero (a : List Nat) : ∀ b : List Nat, a.length = b.length →
    ((∀ x ∈ List.zipWith (fun x y => x ^^^ y) a b, x = 0) ↔ a = b) := by
  induction a with
  | nil =>
    intro b hb
    cases b with
    | nil => simp
    | cons y ys => simp at hb
  | cons x xs ih =>
    intro b hb
    cases b with
    | nil => simp at hb
    | cons y ys =>
      simp only [List.length_cons, Nat.succ.injEq] at hb
      simp only [List.zipWith_cons_cons, List.mem_cons, List.cons.injEq]
      constructor
      · intro h
        have hx : x = y := Nat.xor_eq_zero.mp (h _ (Or.inl rfl))
        exact ⟨hx, (ih ys hb).mp fun z hz => h z (Or.inr hz)⟩
      · rintro ⟨hxy, hxs⟩
        intro z hz
        rcases hz with hz | hz
        · exact hz ▸ Nat.xor_eq_zero.mpr hxy
        · exact ((ih ys hb).mpr hxs) z hz

theorem constantTimeCompare_eq_true_iff (a b : List Nat) :
    constantTimeCompare a b = true ↔ a = b := by
  unfold constantTimeCompare
  by_cases hlen : a.length = b.length
  · simp only [hlen, ne_eq, not_true_eq_false, if_neg, ite_false, beq_iff_eq,
      not_false_eq_true, if_false]
    rw [foldl_lor_eq_zero]
    constructor
    · rintro ⟨-, h⟩
      exact (zipWith_xor_zero a b hlen).mp h
    · intro h
      exact ⟨rfl, (zipWith_xor_zero a b hlen).mpr h⟩
  · simp only [ne_eq, hlen, not_false_eq_true, if_true]
    constructor
    · intro h
      exact (Bool.false_ne_true h).elim
    · intro h
      exact absurd (congrArg List.length h) hlen

theorem sha256_empty_is_wellknown_constant :
    hexOfBytes (sha256 []) =
      asciiOf "e3b0c44298fc1c149afbf4c8996fb92427ae41e4649b934ca495991b7852b855" := by
  decide

theorem sha256_abc_vector :
    hexOfBytes (sha256 (asciiOf "abc")) =
      asciiOf "ba7816bf8f01cfea414140de5dae2223b00361a396177a9cb410ff61f20015ad" := by
  decide

/-- Cross-check of the whole signing pipeline against an independently
    computed HMAC-SHA256 test vector (key "a", payload
    "v1\n1\nGET\n/\n" ++ sha256hex ""). -/
theorem signature_pipeline_vector :
    generateSignatureSync ⟨asciiOf "v1", asciiOf "a", 300⟩
      (asciiOf "1") (asciiOf "get") (asciiOf "/") [] =
    asciiOf "caed5b060e913fa18d3578e8b08a94f1b0ced66cf3be8cd8c84119f99376aee9" := by
  decide

/-- C1: for every secret, timestamp, method, path and body string the
    produced request signature (both `SecurityManager.generateSignatureSync`
    and the legacy `HttpClient.generateSignature`) equals the hex
    HMAC-SHA256, keyed by the secret, of the newline-join of the scheme
    version, the timestamp, the upper-cased method, the path, and the hex
    SHA-256 of the body string; the body defaults to the empty string (whose
    hash is the well-known constant proved in
    `sha256_empty_is_wellknown_constant`), never to an omitted field. -/
theorem signature_matches_spec_canonicalization
    (version secret : List Nat) (tol : Nat) (ts m p b : List Nat) :
    generateSignatureSync ⟨version, secret, tol⟩ ts m p b
        = specSignature version secret ts m p b
    ∧ httpClientGenerateSignature secret ts m p b
        = specSignature signatureVersionV1 secret ts m p b := by
  exact ⟨rfl, rfl⟩

/-- C2: verifying the signature produced by signing the same inputs succeeds
    exactly when `|now - t| ≤ timestampTolerance`, and verification fails for
    any candidate signature that differs from the correct one. -/
theorem verify_sign_roundtrip_and_mutation (cfg : SecurityConfig) (now t : Nat)
    (m p b : List Nat) :
    (verifySignature cfg now (generateSignatureSync cfg (decBytes t) m p b)
        t m p b = decide (absDiff now t ≤ cfg.timestampTolerance))
    ∧ ∀ sig : List Nat, sig ≠ generateSignatureSync cfg (decBytes t) m p b →
        verifySignature cfg now sig t m p b = false := by
  constructor
  · by_cases h : cfg.timestampTolerance < absDiff now t
    · simp [verifySignature, h, Nat.not_le_of_lt h]
    · simp [verifySignature, h, Nat.le_of_not_lt h,
        constantTimeCompare_eq_true_iff]
  · intro sig hne
    by_cases h : cfg.timestampTolerance < absDiff now t
    · simp [verifySignature, h]
    · simp only [verifySignature, h, if_false, ite_false]
      by_cases hc : constantTimeCompare sig (generateSignatureSync cfg (decBytes t) m p b) = true
      · exact absurd (constantTimeCompare_eq_true_iff _ _ |>.mp hc) hne
      · exact Bool.eq_false_iff.mpr fun hcc => hc hcc

/-- Witness for C2 at concrete inputs: the genuine signature verifies
    (clock skew 0 ≤ 300), and a one-byte-prepended mutation is rejected. -/
theorem verify_sign_roundtrip_witness :
    verifySignature ⟨asciiOf "v1", asciiOf "a", 300⟩ 1
        (generateSignatureSync ⟨asciiOf "v1", asciiOf "a", 300⟩ (decBytes 1)
          (asciiOf "get") (asciiOf "/") []) 1 (asciiOf "get") (asciiOf "/") [] = true
    ∧ verifySignature ⟨asciiOf "v1", asciiOf "a", 300⟩ 1
        (10 :: generateSignatureSync ⟨asciiOf "v1", asciiOf "a", 300⟩ (decBytes 1)
          (asciiOf "get") (asciiOf "/") []) 1 (asciiOf "get") (asciiOf "/") [] = false := by
  constructor
  · rw [(verify_sign_roundtrip_and_mutation ⟨asciiOf "v1", asciiOf "a", 300⟩ 1 1
      (asciiOf "get") (asciiOf "/") []).1]
    decide
  · exact (verify_sign_roundtrip_and_mutation ⟨asciiOf "v1", asciiOf "a", 300⟩ 1 1
      (asciiOf "get") (asciiOf "/") []).2 _ (by simp)

/-! ### Runtime profile detector (src/src/core/environment.ts)

`Environment.detect` probes the ambient globals.  An `AmbientContext`
records which globals the execution context exposes. -/

structure AmbientContext where
  hasProcessVersionsNode : Bool
  hasWindow : Bool
  hasWindowDocument : Bool
  hasImportScriptsFn : Bool
  hasNavigator : Bool

inductive Platform where
  | node
  | browser
  | webworker
  | unknown
deriving DecidableEq

structure EnvironmentInfo where
  isServer : Bool
  isBrowser : Bool
  isWebWorker : Bool
  isNode : Bool
  platform : Platform
deriving DecidableEq

/-- `Environment.detect` (src/src/core/environment.ts, lines 24-54):
    `isNode` from the process-version probe, `isBrowser` from
    `window`+`window.document`, `isWebWorker` from
    `importScripts`+`navigator`, `isServer = !isBrowser && !isWebWorker`,
    and the platform tag chosen with `node` first. -/
def detect (ctx : AmbientContext) : EnvironmentInfo :=
  let isNode := ctx.hasProcessVersionsNode
  let isBrowser := ctx.hasWindow && ctx.hasWindowDocument
  let isWebWorker := ctx.hasImportScriptsFn && ctx.hasNavigator
  let isServer := !isBrowser && !isWebWorker
  let platform :=
    if isNode then Platform.node
    else if isBrowser then Platform.browser
    else if isWebWorker then Platform.webworker
    else Platform.unknown
  ⟨isServer, isBrowser, isWebWorker, isNode, platform⟩

/-- The profile invariant exactly as the claim words it: exactly one of the
    three booleans is true, and it is the one matching the platform tag,
    except that the unknown tag maps all three to false. -/
def claimedProfileInvariant (e : EnvironmentInfo) : Prop :=
  match e.platform with
  | Platform.node => e.isServer = true ∧ e.isBrowser = false ∧ e.isWebWorker = false
  | Platform.browser => e.isServer = false ∧ e.isBrowser = true ∧ e.isWebWorker = false
  | Platform.webworker => e.isServer = false ∧ e.isBrowser = false ∧ e.isWebWorker = true
  | Platform.unknown => e.isServer = false ∧ e.isBrowser = false ∧ e.isWebWorker = false

instance (e : EnvironmentInfo) : Decidable (claimedProfileInvariant e) := by
  unfold claimedProfileInvariant
  cases e.platform <;> exact inferInstance

/-- C6 counterexample: in the indeterminate context (no probe fires) the
    source computes `isServer = !isBrowser && !isWebWorker = true` while the
    platform tag is `unknown`, so the claimed "all three false when
    platformTag = unknown" fails. -/
theorem runtime_profile_counterexample :
    (detect ⟨false, false, false, false, false⟩).platform = Platform.unknown
    ∧ (detect ⟨false, false, false, false, false⟩).isServer = true
    ∧ ¬ claimedProfileInvariant (detect ⟨false, false, false, false, false⟩) := by
  refine ⟨rfl, rfl, ?_⟩
  decide

/-- C6 amended: in every ambient context where at most one of the three
    probe groups fires (process-version; window+document;
    importScripts+navigator), the profile has exactly one true boolean
    matching the platform tag — except the indeterminate case, where the tag
    is `unknown` and `isServer` is true (server-like is the fallback) with
    the other two false.  In particular a context exposing window, document
    and navigator yields the browser tag with `isServer = false`. -/
theorem runtime_profile_amended (ctx : AmbientContext)
    (hnb : ctx.hasProcessVersionsNode = true →
      (ctx.hasWindow && ctx.hasWindowDocument) = false)
    (hnw : ctx.hasProcessVersionsNode = true →
      (ctx.hasImportScriptsFn && ctx.hasNavigator) = false)
    (hbw : (ctx.hasWindow && ctx.hasWindowDocument) = true →
      (ctx.hasImportScriptsFn && ctx.hasNavigator) = false) :
    ((detect ctx).platform = Platform.unknown →
      (detect ctx).isServer = true ∧ (detect ctx).isBrowser = false
        ∧ (detect ctx).isWebWorker = false)
    ∧ ((detect ctx).platform ≠ Platform.unknown →
        claimedProfileInvariant (detect ctx))
    ∧ (detect ⟨false, true, true, false, true⟩).platform = Platform.browser
    ∧ (detect ⟨false, true, true, false, true⟩).isServer = false := by
  rcases ctx with ⟨a, b, c, d, e⟩
  revert hnb hnw hbw
  cases a <;> cases b <;> cases c <;> cases d <;> cases e <;> decide

/-- Witness for the amended C6 at the browser context. -/
theorem runtime_profile_amended_witness :
    (detect ⟨false, true, true, false, true⟩).platform = Platform.browser
    ∧ (detect ⟨false, true, true, false, true⟩).isServer = false :=
  (runtime_profile_amended ⟨false, true, true, false, true⟩
    (by decide) (by decide) (by decide)).2.2

/-! ### JSON values

Response bodies are modelled as JSON trees; object fields keep insertion
order, keys are character lists. -/

inductive Json where
  | null
  | jbool (b : Bool)
  | num (n : Int)
  | str (s : List Char)
  | arr (items : List Json)
  | obj (fields : List (List Char × Json))

def dataKey : List Char := "data".data

def successKey : List Char := "success".data

/-- `Object.prototype.hasOwnProperty` on the modelled object fields. -/
def hasField (fields : List (List Char × Json)) (key : List Char) : Bool :=
  fields.any (fun kv => kv.1 == key)

/-- The envelope normalization of `HttpClient.request`
    (src/unnamed/part_002, lines 201-220): an object owning a `data`
    property is returned as-is; anything else (other objects, arrays,
    primitives, null) is wrapped as `{ success: true, data: rawBody }`. -/
def normalizeResponse (raw : Json) : Json :=
  match raw with
  | Json.obj fields =>
      if hasField fields dataKey then Json.obj fields
      else Json.obj [(successKey, Json.jbool true), (dataKey, raw)]
  | _ => Json.obj [(successKey, Json.jbool true), (dataKey, raw)]

/-- The normalization rule exactly as the claim words it: an object exposing
    `data` passes through unchanged but gains `success: true` when that
    field is absent; everything else is wrapped. -/
def claimedNormalize (raw : Json) : Json :=
  match raw with
  | Json.obj fields =>
      if hasField fields dataKey then
        if hasField fields successKey then Json.obj fields
        else Json.obj (fields ++ [(successKey, Json.jbool true)])
      else Json.obj [(successKey, Json.jbool true), (dataKey, raw)]
  | _ => Json.obj [(successKey, Json.jbool true), (dataKey, raw)]

/-- Whether a JSON value is an object owning the given top-level key. -/
def topHasKey (j : Json) (k : List Char) : Bool :=
  match j with
  | Json.obj fields => hasField fields k
  | _ => false

/-- C7 counterexample: for the enveloped body `{data: 1}` without a
    `success` field the source returns it unchanged — no `success: true` is
    ever added — while the claim predicts a `success` field in the output. -/
theorem normalize_counterexample :
    normalizeResponse (Json.obj [(dataKey, Json.num 1)])
        = Json.obj [(dataKey, Json.num 1)]
    ∧ hasField [(dataKey, Json.num 1)] successKey = false
    ∧ normalizeResponse (Json.obj [(dataKey, Json.num 1)])
        ≠ claimedNormalize (Json.obj [(dataKey, Json.num 1)]) := by
  refine ⟨rfl, by decide, ?_⟩
  intro h
  have h2 := congrArg (fun j => topHasKey j successKey) h
  exact Bool.false_ne_true h2

/-- C7 amended: an object exposing a `data` property passes through
    entirely unchanged (`success` is never added, even when absent); any
    other body is wrapped as `{success: true, data: rawBody}`.  In
    particular `{id:1,name:"x"}` is wrapped and
    `{data:{id:1},success:false,message:"err"}` is returned unchanged. -/
theorem normalize_amended (raw : Json) :
    (∀ fields, raw = Json.obj fields → hasField fields dataKey = true →
        normalizeResponse raw = raw)
    ∧ ((∀ fields, raw = Json.obj fields → hasField fields dataKey = false) →
        normalizeResponse raw
          = Json.obj [(successKey, Json.jbool true), (dataKey, raw)])
    ∧ normalizeResponse (Json.obj [("id".data, Json.num 1), ("name".data, Json.str "x".data)])
        = Json.obj [(successKey, Json.jbool true),
            (dataKey, Json.obj [("id".data, Json.num 1), ("name".data, Json.str "x".data)])]
    ∧ normalizeResponse (Json.obj [(dataKey, Json.obj [("id".data, Json.num 1)]),
          (successKey, Json.jbool false), ("message".data, Json.str "err".data)])
        = Json.obj [(dataKey, Json.obj [("id".data, Json.num 1)]),
          (successKey, Json.jbool false), ("message".data, Json.str "err".data)] := by
  refine ⟨?_, ?_, rfl, rfl⟩
  · rintro fields rfl hd
    simp [normalizeResponse, hd]
  · intro h
    cases raw with
    | obj fields =>
        have hd := h fields rfl
        simp [normalizeResponse, hd]
    | null => rfl
    | jbool b => rfl
    | num n => rfl
    | str s => rfl
    | arr items => rfl

/-- Witness for the amended C7 at concrete enveloped and plain bodies. -/
theorem normalize_amended_witness :
    normalizeResponse (Json.obj [(dataKey, Json.num 1)])
        = Json.obj [(dataKey, Json.num 1)]
    ∧ normalizeResponse (Json.num 7)
        = Json.obj [(successKey, Json.jbool true), (dataKey, Json.num 7)] := by
  constructor
  · exact (normalize_amended (Json.obj [(dataKey, Json.num 1)])).1
      [(dataKey, Json.num 1)] rfl (by decide)
  · exact (normalize_amended (Json.num 7)).2.1 (by intro fields h; cases h)

/-! ### Sensitive-field stripping (src/unnamed/part_003, lines 303-346)

JS string predicates (`includes`, `endsWith`, `toLowerCase`) modelled over
character lists. -/

/-- `hasHead n h`: `h` starts with `n`. -/
def hasHead : List Char → List Char → Bool
  | [], _ => true
  | _ :: _, [] => false
  | a :: as, b :: bs => a == b && hasHead as bs

/-- JS `String.prototype.includes`: `n` occurs contiguously in `h`. -/
def hasSub (n : List Char) : List Char → Bool
  | [] => hasHead n []
  | c :: rest => hasHead n (c :: rest) || hasSub n rest

/-- JS `String.prototype.endsWith`. -/
def endsW (s suffix : List Char) : Bool := hasHead suffix.reverse s.reverse

theorem hasHead_iff (n : List Char) : ∀ h : List Char,
    (hasHead n h = true ↔ ∃ r, h = n ++ r) := by
  induction n with
  | nil =>
    intro h
    simp [hasHead]
  | cons a as ih =>
    intro h
    cases h with
    | nil =>
      simp [hasHead]
    | cons b bs =>
      simp only [hasHead, Bool.and_eq_true, beq_iff_eq, ih bs]
      constructor
      · rintro ⟨rfl, r, rfl⟩
        exact ⟨r, rfl⟩
      · rintro ⟨r, hr⟩
        rw [List.cons_append] at hr
        injection hr with h1 h2
        exact ⟨h1.symm, r, h2⟩

theorem hasSub_iff (n : List Char) : ∀ h : List Char,
    (hasSub n h = true ↔ ∃ p r, h = p ++ n ++ r) := by
  intro h
  induction h with
  | nil =>
    simp only [hasSub, hasHead_iff]
    constructor
    · rintro ⟨r, hr⟩
      exact ⟨[], r, hr⟩
    · rintro ⟨p, r, hr⟩
      have h1 := List.append_eq_nil.mp hr.symm
      have h2 := List.append_eq_nil.mp h1.1
      exact ⟨[], by simp [h2.2]⟩
  | cons c rest ih =>
    simp only [hasSub, Bool.or_eq_true, hasHead_iff, ih]
    constructor
    · rintro (⟨r, hr⟩ | ⟨p, r, hr⟩)
      · exact ⟨[], r, by simpa using hr⟩
      · exact ⟨c :: p, r, by simp [hr]⟩
    · rintro ⟨p, r, hr⟩
      cases p with
      | nil =>
        exact Or.inl ⟨r, by simpa using hr⟩
      | cons q qs =>
        rw [List.cons_append, List.cons_append] at hr
        injection hr with h1 h2
        exact Or.inr ⟨qs, r, by simp [h2]⟩

theorem endsW_iff (s suffix : List Char) :
    endsW s suffix = true ↔ ∃ p, s = p ++ suffix := by
  unfold endsW
  rw [hasHead_iff]
  constructor
  · rintro ⟨r, hr⟩
    refine ⟨r.reverse, ?_⟩
    have := congrArg List.reverse hr
    simpa [List.reverse_append] using this
  · rintro ⟨p, rfl⟩
    exact ⟨p.reverse, by simp [List.reverse_append]⟩

/-- A suffix match on `pre ++ mid` forces a substring match on `mid`. -/
theorem hasSub_of_endsW (s pre mid : List Char)
    (h : endsW s (pre ++ mid) = true) : hasSub mid s = true := by
  rcases (endsW_iff s (pre ++ mid)).mp h with ⟨p, rfl⟩
  exact (hasSub_iff mid (p ++ (pre ++ mid))).mpr ⟨p ++ pre, [], by simp⟩

/-- JS `toLowerCase` restricted to ASCII letters. -/
def toLowerChar (c : Char) : Char :=
  if 'A' ≤ c ∧ c ≤ 'Z' then Char.ofNat (c.toNat + 32) else c

def lowerStr (s : List Char) : List Char := s.map toLowerChar

/-- The fixed denylist of sensitive-field substrings in
    `SecurityManager.sanitizeClientData`. -/
def sensitiveFields : List (List Char) :=
  ["password", "secret", "key", "token", "api_key",
   "private_key", "secret_key", "webhook_secret",
   "email_verified_at", "remember_token", "deleted_at",
   "created_by", "updated_by", "deleted_by"].map String.data

/-- The fixed allowlist of legitimate client-facing token field names. -/
def allowedTokens : List (List Char) :=
  ["session_token", "csrf_token", "access_token", "refresh_token",
   "token", "cart_token"].map String.data

/-- The per-key drop decision of `sanitizeClientData`: not exactly
    allowlisted, and (denylisted substring, or `_secret`/`_token` suffix). -/
def keySensitive (key : List Char) : Bool :=
  let kl := lowerStr key
  let isAllowed := allowedTokens.any (fun t => kl == t)
  !isAllowed && (sensitiveFields.any (fun f => hasSub f kl)
    || endsW kl "_secret".data || endsW kl "_token".data)

/-- The drop decision exactly as the claim words it: lowercased key contains
    a denylisted substring and is not an exact allowlist match. -/
def claimedKeySensitive (key : List Char) : Bool :=
  let kl := lowerStr key
  !(allowedTokens.any (fun t => kl == t))
    && sensitiveFields.any (fun f => hasSub f kl)

theorem keySensitive_eq_claimed (key : List Char) :
    keySensitive key = claimedKeySensitive key := by
  unfold keySensitive claimedKeySensitive
  by_cases hany : (sensitiveFields.any (fun f => hasSub f (lowerStr key))) = true
  · simp [hany]
  · have hsec : endsW (lowerStr key) "_secret".data = false := by
      by_contra hc
      have h1 : endsW (lowerStr key) ("_".data ++ "secret".data) = true := by
        simpa using Bool.not_eq_false _ |>.mp hc
      have h2 := hasSub_of_endsW (lowerStr key) "_".data "secret".data h1
      exact hany (List.any_eq_true.mpr ⟨"secret".data, by decide, h2⟩)
    have htok : endsW (lowerStr key) "_token".data = false := by
      by_contra hc
      have h1 : endsW (lowerStr key) ("_".data ++ "token".data) = true := by
        simpa using Bool.not_eq_false _ |>.mp hc
      have h2 := hasSub_of_endsW (lowerStr key) "_".data "token".data h1
      exact hany (List.any_eq_true.mpr ⟨"token".data, by decide, h2⟩)
    simp [hany, hsec, htok]

/-- `SecurityManager.sanitizeClientData`: arrays map recursively, objects
    drop sensitive keys and recurse into kept values, primitives pass
    through.  The source recursion is unbounded; `fuel` bounds the depth
    (any fuel at least the tree depth gives the source behaviour). -/
def sanitizeJ : Nat → Json → Json
  | 0, j => j
  | fuel + 1, Json.arr items => Json.arr (items.map (sanitizeJ fuel))
  | fuel + 1, Json.obj fields =>
      Json.obj (fields.filterMap (fun kv =>
        if keySensitive kv.1 then none else some (kv.1, sanitizeJ fuel kv.2)))
  | _ + 1, Json.null => Json.null
  | _ + 1, Json.jbool b => Json.jbool b
  | _ + 1, Json.num n => Json.num n
  | _ + 1, Json.str s => Json.str s

/-- C8: the drop decision is exactly "lowercased key contains a denylisted
    substring, unless it exactly equals an allowlisted token name" (the
    `_secret`/`_token` suffix checks of the source are subsumed by the
    denylist substrings `secret`/`token`); object sanitization keeps exactly
    the non-sensitive fields, recursing into kept values; and the example
    `{password, session_token, api_key}` keeps only `session_token`. -/
theorem sanitize_allowlist_denylist (key : List Char) (fuel : Nat)
    (fields : List (List Char × Json)) :
    keySensitive key = claimedKeySensitive key
    ∧ sanitizeJ (fuel + 1) (Json.obj fields)
        = Json.obj (fields.filterMap (fun kv =>
            if claimedKeySensitive kv.1 then none
            else some (kv.1, sanitizeJ fuel kv.2)))
    ∧ sanitizeJ 2 (Json.obj [("password".data, Json.str "p".data),
          ("session_token".data, Json.str "s".data),
          ("api_key".data, Json.str "k".data)])
        = Json.obj [("session_token".data, Json.str "s".data)] := by
  refine ⟨keySensitive_eq_claimed key, ?_, ?_⟩
  · show Json.obj (fields.filterMap _) = Json.obj (fields.filterMap _)
    congr 1
    exact List.filterMap_congr fun kv _ => by rw [keySensitive_eq_claimed]
  · rfl

/-! ### Retry state machine (src/unnamed/part_004, `UniversalHttpClient.request`)

Failures carry the HTTP status (on the error itself and/or its attached
response), the error message, and an optional parsed `Retry-After` header
of the attached response. -/

inductive RetryAfterHint where
  | seconds (n : Nat)
  | httpDate (msFromNow : Int)

structure HttpErr where
  status : Option Nat
  message : List Char
  respStatus : Option Nat
  retryAfter : Option RetryAfterHint

/-- `error.status || error.response?.status`. -/
def effStatus (e : HttpErr) : Option Nat :=
  match e.status with
  | some s => some s
  | none => e.respStatus

/-- The markers of `shouldNotRetry`'s non-retryable network errors. -/
def nonRetryableMarks : List (List Char) :=
  ["ENOTFOUND", "ECONNREFUSED", "CERT_", "ABORT_ERR"].map String.data

def msgNonRetryable (msg : List Char) : Bool :=
  nonRetryableMarks.any (fun m => hasSub m msg)

/-- `UniversalHttpClient.shouldNotRetry` (src/unnamed/part_004, lines
    279-299): 4xx permanent except 408/429; 501/505 permanent; any other
    status (and absent status) falls through to the message-marker check. -/
def shouldNotRetry (e : HttpErr) : Bool :=
  match effStatus e with
  | some s =>
      if 400 ≤ s && s < 500 then !(s == 408 || s == 429)
      else if s == 501 || s == 505 then true
      else msgNonRetryable e.message
  | none => msgNonRetryable e.message

/-- Millisecond value of a `Retry-After` hint: a numeric header is
    seconds*1000, an HTTP-date header is `date.getTime() - Date.now()`. -/
def hintMs : RetryAfterHint → Int
  | RetryAfterHint.seconds n => (n : Int) * 1000
  | RetryAfterHint.httpDate d => d

/-- The delay computation of `UniversalHttpClient.request`
    (src/unnamed/part_004, lines 102-119): exponential backoff
    `retryDelay * 2^attempt`, overridden by a 429 `Retry-After` hint when
    its millisecond value satisfies `0 < ms && ms < 60000`. -/
def computeDelay (retryDelay : Nat) (e : HttpErr) (attempt : Nat) : Nat :=
  let base := retryDelay * 2 ^ attempt
  if effStatus e == some 429 then
    match e.retryAfter with
    | some hint =>
        if 0 < hintMs hint ∧ hintMs hint < 60000 then (hintMs hint).toNat else base
    | none => base
  else base

/-- The delay rule exactly as the claim words it: the hint value is used
    whenever it falls within the CLOSED interval [0, 60000]. -/
def claimedDelay (retryDelay : Nat) (e : HttpErr) (attempt : Nat) : Nat :=
  if effStatus e == some 429 then
    match e.retryAfter with
    | some hint =>
        if 0 ≤ hintMs hint ∧ hintMs hint ≤ 60000 then (hintMs hint).toNat
        else retryDelay * 2 ^ attempt
    | none => retryDelay * 2 ^ attempt
  else retryDelay * 2 ^ attempt

/-- The delay rule with the OPEN interval (0, 60000), matching the source. -/
def amendedDelay (retryDelay : Nat) (e : HttpErr) (attempt : Nat) : Nat :=
  if effStatus e == some 429 then
    match e.retryAfter with
    | some hint =>
        if 0 < hintMs hint ∧ hintMs hint < 60000 then (hintMs hint).toNat
        else retryDelay * 2 ^ attempt
    | none => retryDelay * 2 ^ attempt
  else retryDelay * 2 ^ attempt

/-- Result of one attempt of `makeRequest`. -/
inductive AttemptResult where
  | success (respData : Json)
  | failure (e : HttpErr)

/-- `SecurityManager.validateResponse` (src/unnamed/part_003, lines
    370-388), boolean part: non-object bodies are invalid; a `success`
    field, when present, must be boolean. -/
def validateResponse : Json → Bool
  | Json.obj fields =>
      match fields.find? (fun kv => kv.1 == successKey) with
      | some (_, Json.jbool _) => true
      | some _ => false
      | none => true
  | Json.arr _ => true
  | _ => false

/-- `new Error('Invalid response format')` thrown in `request` when
    validation fails: no status, no response. -/
def invalidFormatErr : HttpErr := ⟨none, "Invalid response format".data, none, none⟩

/-- One iteration body of the retry loop: a successful response failing
    validation is converted to the thrown invalid-format error. -/
def attemptOutcome (outcome : Nat → AttemptResult) (n : Nat) : Except HttpErr Json :=
  match outcome n with
  | AttemptResult.success respData =>
      if validateResponse respData then Except.ok respData
      else Except.error invalidFormatErr
  | AttemptResult.failure e => Except.error e

structure LoopResult where
  attempts : Nat
  delays : List Nat
  result : Except HttpErr Json

/-- The retry loop of `UniversalHttpClient.request` (src/unnamed/part_004,
    lines 77-127): `for (attempt = 0; attempt <= maxRetries; attempt++)`,
    breaking on success, on `shouldNotRetry`, or on the last allowed
    attempt, and sleeping `computeDelay` before each retry.  `fuel` is the
    number of loop iterations still allowed; the loop is entered with
    `fuel = maxRetries + 1`, and the fuel-exhausted base case is never
    reached because `attempt == maxRetries` breaks first. -/
def runLoop (maxRetries retryDelay : Nat) (outcome : Nat → AttemptResult) :
    Nat → Nat → LoopResult
  | _, 0 => ⟨0, [], Except.error invalidFormatErr⟩
  | attempt, fuel + 1 =>
      match attemptOutcome outcome attempt with
      | Except.ok respData => ⟨1, [], Except.ok respData⟩
      | Except.error e =>
          if shouldNotRetry e || attempt == maxRetries then ⟨1, [], Except.error e⟩
          else
            let rest := runLoop maxRetries retryDelay outcome (attempt + 1) fuel
            ⟨rest.attempts + 1, computeDelay retryDelay e attempt :: rest.delays,
             rest.result⟩

/-- `UniversalHttpClient.request`, retry portion. -/
def requestRun (maxRetries retryDelay : Nat) (outcome : Nat → AttemptResult) :
    LoopResult :=
  runLoop maxRetries retryDelay outcome 0 (maxRetries + 1)

theorem runLoop_attempts_le (maxRetries retryDelay : Nat)
    (outcome : Nat → AttemptResult) :
    ∀ fuel attempt, (runLoop maxRetries retryDelay outcome attempt fuel).attempts ≤ fuel := by
  intro fuel
  induction fuel with
  | zero => intro attempt; simp [runLoop]
  | succ f ih =>
    intro attempt
    unfold runLoop
    cases attemptOutcome outcome attempt with
    | ok respData => simp
    | error e =>
      dsimp only
      by_cases hstop : (shouldNotRetry e || attempt == maxRetries) = true
      · simp [hstop]
      · rw [if_neg hstop]
        have h2 := ih (attempt + 1)
        show (runLoop maxRetries retryDelay outcome (attempt + 1) f).attempts + 1 ≤ f + 1
        omega

theorem shouldNotRetry_500_false (e : HttpErr) (hs : effStatus e = some 500)
    (hm : msgNonRetryable e.message = false) : shouldNotRetry e = false := by
  unfold shouldNotRetry
  rw [hs]
  simp [hm]

/-- C3 counterexample: a request failing every attempt with HTTP status 500
    is NOT always retried — when the 500 error's message happens to contain
    a non-retryable network marker (here the server-controlled message
    "ECONNREFUSED"), `shouldNotRetry` reports true and only one attempt is
    performed, not the claimed three. -/
theorem retry_bounds_counterexample :
    (requestRun 2 500 (fun _ =>
        AttemptResult.failure ⟨some 500, "ECONNREFUSED".data, none, none⟩)).attempts = 1
    ∧ (requestRun 2 500 (fun _ =>
        AttemptResult.failure ⟨some 500, "ECONNREFUSED".data, none, none⟩)).attempts ≠ 3 := by
  exact ⟨by decide, by decide⟩

/-- C3 amended: the total number of attempts never exceeds `maxRetries + 1`
    for any outcome stream; and with `maxRetries = 2`, a request whose every
    attempt fails with HTTP status 500 — and whose error messages do not
    contain one of the non-retryable network markers (ENOTFOUND,
    ECONNREFUSED, CERT_, ABORT_ERR) — performs exactly 3 attempts and then
    surfaces the terminal 500 error. -/
theorem retry_bounds_amended :
    (∀ maxRetries retryDelay outcome,
        (requestRun maxRetries retryDelay outcome).attempts ≤ maxRetries + 1)
    ∧ (∀ outcome : Nat → AttemptResult,
        (∀ n, ∃ e : HttpErr, outcome n = AttemptResult.failure e
            ∧ effStatus e = some 500 ∧ msgNonRetryable e.message = false) →
        ∀ retryDelay,
          (requestRun 2 retryDelay outcome).attempts = 3
          ∧ ∃ e, (requestRun 2 retryDelay outcome).result = Except.error e
              ∧ effStatus e = some 500) := by
  constructor
  · intro maxRetries retryDelay outcome
    exact runLoop_attempts_le maxRetries retryDelay outcome (maxRetries + 1) 0
  · intro outcome h retryDelay
    obtain ⟨e0, h0, hs0, hm0⟩ := h 0
    obtain ⟨e1, h1, hs1, hm1⟩ := h 1
    obtain ⟨e2, h2, hs2, hm2⟩ := h 2
    have s0 := shouldNotRetry_500_false e0 hs0 hm0
    have s1 := shouldNotRetry_500_false e1 hs1 hm1
    have a0 : attemptOutcome outcome 0 = Except.error e0 := by
      unfold attemptOutcome; rw [h0]
    have a1 : attemptOutcome outcome 1 = Except.error e1 := by
      unfold attemptOutcome; rw [h1]
    have a2 : attemptOutcome outcome 2 = Except.error e2 := by
      unfold attemptOutcome; rw [h2]
    have r2 : runLoop 2 retryDelay outcome 2 1 = ⟨1, [], Except.error e2⟩ := by
      unfold runLoop
      rw [a2]
      dsimp only
      rw [if_pos (by simp)]
    have r1 : runLoop 2 retryDelay outcome 1 2
        = ⟨2, [computeDelay retryDelay e1 1], Except.error e2⟩ := by
      unfold runLoop
      rw [a1]
      dsimp only
      rw [if_neg (by simp [s1])]
      rw [r2]
    have r0 : runLoop 2 retryDelay outcome 0 3
        = ⟨3, [computeDelay retryDelay e0 0, computeDelay retryDelay e1 1],
           Except.error e2⟩ := by
      unfold runLoop
      rw [a0]
      dsimp only
      rw [if_neg (by simp [s0])]
      rw [r1]
    refine ⟨?_, e2, ?_, hs2⟩
    · show (runLoop 2 retryDelay outcome 0 3).attempts = 3
      rw [r0]
    · show (runLoop 2 retryDelay outcome 0 3).result = Except.error e2
      rw [r0]

/-- Witness for the amended C3: an outcome stream failing every attempt
    with a plain `HTTP 500` error yields exactly 3 attempts. -/
theorem retry_bounds_amended_witness :
    (requestRun 2 500 (fun _ => AttemptResult.failure
        ⟨some 500, "HTTP 500: Internal Server Error".data, none, none⟩)).attempts = 3 :=
  (retry_bounds_amended.2
    (fun _ => AttemptResult.failure
      ⟨some 500, "HTTP 500: Internal Server Error".data, none, none⟩)
    (fun _ => ⟨⟨some 500, "HTTP 500: Internal Server Error".data, none, none⟩,
      rfl, rfl, by decide⟩) 500).1

/-- C4 counterexample: a 429 failure whose `Retry-After` hint converts to
    exactly 60000 ms is inside the claim's closed interval [0, 60000], yet
    the source (`retryAfterMs > 0 && retryAfterMs < 60000`) falls back to
    the exponential delay of 500 ms instead of using 60000. -/
theorem backoff_interval_counterexample :
    computeDelay 500
        ⟨some 429, "HTTP 429: Too Many Requests".data, some 429,
         some (RetryAfterHint.seconds 60)⟩ 0 = 500
    ∧ claimedDelay 500
        ⟨some 429, "HTTP 429: Too Many Requests".data, some 429,
         some (RetryAfterHint.seconds 60)⟩ 0 = 60000 := by
  exact ⟨by decide, by decide⟩

/-- C4 amended: the delay before retrying attempt `n` is
    `retryDelay * 2^n`, except that a status-429 failure carrying a
    `Retry-After` hint whose millisecond value lies in the OPEN interval
    (0, 60000) uses that value instead; a `Retry-After: 2` hint therefore
    always yields a 2000 ms delay, and with `maxRetries = 2` such a request
    waits [2000, 2000] over its three attempts. -/
theorem backoff_amended (retryDelay : Nat) (e : HttpErr) (n : Nat) :
    computeDelay retryDelay e n = amendedDelay retryDelay e n
    ∧ (∀ rd k : Nat, computeDelay rd
        ⟨some 429, "HTTP 429: Too Many Requests".data, some 429,
         some (RetryAfterHint.seconds 2)⟩ k = 2000)
    ∧ (requestRun 2 500 (fun _ => AttemptResult.failure
        ⟨some 429, "HTTP 429: Too Many Requests".data, some 429,
         some (RetryAfterHint.seconds 2)⟩)).delays = [2000, 2000]
    ∧ (requestRun 2 500 (fun _ => AttemptResult.failure
        ⟨some 429, "HTTP 429: Too Many Requests".data, some 429,
         some (RetryAfterHint.seconds 2)⟩)).attempts = 3 := by
  refine ⟨rfl, ?_, by decide, by decide⟩
  intro rd k
  rfl

/-! ### Credential side effects of terminal responses (C5)

The legacy `HttpClient.request` (src/unnamed/part_002, lines 160-199)
handles the fetched response: 429 throws before parsing, a non-JSON body
throws a parse error, a non-ok status throws an HTTP error — clearing the
stored auth token first when the status is 401 — and an ok status returns
the normalized envelope. -/

structure TokenState where
  authToken : Option (List Char)
  cartToken : Option (List Char)
deriving DecidableEq

structure WireResponse where
  status : Nat
  retryAfterHeader : Option (List Char)
  jsonBody : Option Json

inductive LegacyOutcome where
  | rateLimited (retryAfter : Option (List Char))
  | parseFailure (status : Nat)
  | httpError (status : Nat) (body : Json)
  | success (envelope : Json)

/-- Terminal-response handling of `HttpClient.request`; `response.ok`
    is `200 ≤ status < 300`. -/
def legacyHandle (st : TokenState) (resp : WireResponse) :
    TokenState × LegacyOutcome :=
  if resp.status == 429 then (st, LegacyOutcome.rateLimited resp.retryAfterHeader)
  else
    match resp.jsonBody with
    | none => (st, LegacyOutcome.parseFailure resp.status)
    | some body =>
        if !(200 ≤ resp.status && resp.status < 300) then
          let st' := if resp.status == 401 then { st with authToken := none } else st
          (st', LegacyOutcome.httpError resp.status body)
        else (st, LegacyOutcome.success (normalizeResponse body))

/-- `UniversalHttpClient.request` (src/unnamed/part_004, lines 77-127)
    contains no access to the SecurityManager token state on any path, so
    the credential state passes through a universal-client call unchanged
    alongside the retry-loop result. -/
def universalRequestTokens (st : TokenState) (maxRetries retryDelay : Nat)
    (outcome : Nat → AttemptResult) : TokenState × LoopResult :=
  (st, requestRun maxRetries retryDelay outcome)

/-- C5 counterexample: a call through `UniversalHttpClient` whose terminal
    response is a 401 surfaces the 401 error after a single attempt but
    does NOT clear the stored bearer token, contradicting the claim that
    every 401 call clears it. -/
theorem auth_expiry_counterexample :
    (universalRequestTokens ⟨some "t".data, none⟩ 2 500 (fun _ =>
        AttemptResult.failure ⟨some 401, "HTTP 401: Unauthorized".data, some 401, none⟩)).1
      = ⟨some "t".data, none⟩
    ∧ (universalRequestTokens ⟨some "t".data, none⟩ 2 500 (fun _ =>
        AttemptResult.failure ⟨some 401, "HTTP 401: Unauthorized".data, some 401, none⟩)).2.attempts
      = 1
    ∧ effStatus ⟨some 401, "HTTP 401: Unauthorized".data, some 401, none⟩ = some 401 := by
  exact ⟨rfl, by decide, rfl⟩

/-- C5 amended: a call through the legacy `HttpClient` whose terminal
    response has status 401 and a JSON-parseable body clears the bearer
    token, leaves the cart token unchanged, is not retried (the client
    performs a single attempt by construction), and surfaces an HTTP error
    with status 401; a 401 through `UniversalHttpClient` is also never
    retried and surfaces status 401, but leaves the credential state
    entirely unchanged. -/
theorem auth_expiry_amended (st : TokenState) (resp : WireResponse)
    (h401 : resp.status = 401) (body : Json) (hb : resp.jsonBody = some body) :
    (legacyHandle st resp).1.authToken = none
    ∧ (legacyHandle st resp).1.cartToken = st.cartToken
    ∧ (legacyHandle st resp).2 = LegacyOutcome.httpError 401 body
    ∧ (∀ st' maxRetries retryDelay outcome,
        (universalRequestTokens st' maxRetries retryDelay outcome).1 = st')
    ∧ (∀ e : HttpErr, effStatus e = some 401 → shouldNotRetry e = true) := by
  have hmain : legacyHandle st resp
      = ({ st with authToken := none }, LegacyOutcome.httpError 401 body) := by
    unfold legacyHandle
    rw [hb, h401]
    dsimp only
    rw [if_neg (by decide), if_pos (by decide), if_pos (by decide)]
  refine ⟨by rw [hmain], by rw [hmain], by rw [hmain], fun _ _ _ _ => rfl, ?_⟩
  intro e he
  unfold shouldNotRetry
  rw [he]
  dsimp only
  rw [if_pos (by decide)]
  decide

/-- Witness for the amended C5 at a concrete 401 response. -/
theorem auth_expiry_amended_witness :
    (legacyHandle ⟨some "t".data, some "c".data⟩
        ⟨401, none, some (Json.obj [("message".data, Json.str "Unauthenticated".data)])⟩).1
      = ⟨none, some "c".data⟩ := by
  have h := auth_expiry_amended ⟨some "t".data, some "c".data⟩
    ⟨401, none, some (Json.obj [("message".data, Json.str "Unauthenticated".data)])⟩
    rfl (Json.obj [("message".data, Json.str "Unauthenticated".data)]) rfl
  have h1 := h.1
  have h2 := h.2.1
  cases hst : (legacyHandle ⟨some "t".data, some "c".data⟩
      ⟨401, none, some (Json.obj [("message".data, Json.str "Unauthenticated".data)])⟩).1 with
  | mk a c =>
    rw [hst] at h1 h2
    simp only at h1 h2
    rw [h1, h2]

/-! ### Error normalization (src/unnamed/part_004, `normalizeError`)

A JS error value is modelled by its observable shape: whether it is a
native `Error` instance (and therefore carries an execution stack trace),
its `name`, `message`, top-level `status`/`statusText`, and its attached
`response` (presence, `data` presence, status, statusText). -/

structure JsError where
  isNativeError : Bool
  name : List Char
  message : List Char
  status : Option Nat
  statusText : List Char
  hasResponse : Bool
  respHasData : Bool
  respStatus : Option Nat
  respStatusText : List Char
deriving DecidableEq

/-- `HTTP ${status}: ${statusText}` (status rendered in decimal). -/
def httpMsg (status : Option Nat) (statusText : List Char) : List Char :=
  "HTTP ".data ++ (match status with
    | some s => (decDigits (s + 1) s).map Char.ofNat
    | none => "undefined".data) ++ ": ".data ++ statusText

/-- The plain-object error `fetchRequest` throws on a non-ok response
    (src/unnamed/part_004, lines 168-181): an object literal, not an
    `Error` instance, with `name: 'HttpError'`, the upstream status, and
    the parsed body attached as `response.data`. -/
def mkHttpError (message : List Char) (status : Nat) (statusText : List Char) :
    JsError :=
  { isNativeError := false, name := "HttpError".data, message := message,
    status := some status, statusText := statusText, hasResponse := true,
    respHasData := true, respStatus := some status,
    respStatusText := statusText }

/-- `UniversalHttpClient.normalizeError` (src/unnamed/part_004, lines
    304-336): errors already carrying `response.data` pass through as-is;
    response-bearing and status-bearing errors become plain `HttpError`
    objects; native `TypeError`/`NetworkError` instances are kept as-is
    (the source comment: "Keep genuine network errors as Error objects");
    everything else becomes a plain `UnknownError` object whose message is
    the stringified error. -/
def normalizeError (e : JsError) : JsError :=
  if e.hasResponse && e.respHasData then e
  else if e.hasResponse then
    { isNativeError := false, name := "HttpError".data,
      message := httpMsg e.respStatus e.respStatusText,
      status := e.respStatus, statusText := e.respStatusText,
      hasResponse := true, respHasData := e.respHasData,
      respStatus := e.respStatus, respStatusText := e.respStatusText }
  else if e.status.isSome then
    { isNativeError := false, name := "HttpError".data,
      message := httpMsg e.status e.statusText,
      status := e.status, statusText := e.statusText,
      hasResponse := false, respHasData := false,
      respStatus := none, respStatusText := [] }
  else if e.isNativeError
      && (e.name == "TypeError".data || e.name == "NetworkError".data) then e
  else
    { isNativeError := false, name := "UnknownError".data,
      message := e.message, status := none, statusText := [],
      hasResponse := false, respHasData := false,
      respStatus := none, respStatusText := [] }

/-- A native browser fetch network failure: `TypeError: Failed to fetch`. -/
def fetchTypeError : JsError :=
  { isNativeError := true, name := "TypeError".data,
    message := "Failed to fetch".data, status := none, statusText := [],
    hasResponse := false, respHasData := false, respStatus := none,
    respStatusText := [] }

/-- C9 counterexample: `normalizeError` passes a genuine network
    `TypeError` through unchanged, so the error surfaced to the caller on
    terminal network failure IS a native exception object carrying a stack
    trace — such an error has no status and its message contains no
    non-retryable marker, so it is retried and then surfaced as-is. -/
theorem error_plainness_counterexample :
    normalizeError fetchTypeError = fetchTypeError
    ∧ (normalizeError fetchTypeError).isNativeError = true
    ∧ msgNonRetryable "Failed to fetch".data = false := by
  exact ⟨by decide, by decide, by decide⟩

/-- C9 amended: every error the client itself constructs from an HTTP
    response is a plain serializable object (message, status, `HttpError`
    discriminator, no native stack), and `normalizeError` never turns a
    plain object into a native exception; however, genuine network errors —
    native `TypeError`/`NetworkError` instances — and native errors already
    carrying a `response.data` payload are deliberately passed through
    as-is and remain native exception objects. -/
theorem error_plainness_amended (msg statusText : List Char) (s : Nat)
    (e : JsError) :
    (mkHttpError msg s statusText).isNativeError = false
    ∧ normalizeError (mkHttpError msg s statusText) = mkHttpError msg s statusText
    ∧ (e.isNativeError = false → (normalizeError e).isNativeError = false)
    ∧ ((normalizeError e).isNativeError = true →
        e.isNativeError = true
        ∧ ((e.hasResponse && e.respHasData) = true
            ∨ (e.name == "TypeError".data || e.name == "NetworkError".data) = true)) := by
  refine ⟨rfl, by simp [normalizeError, mkHttpError], ?_, ?_⟩
  · intro hplain
    unfold normalizeError
    by_cases h1 : (e.hasResponse && e.respHasData) = true
    · simp [h1, hplain]
    · by_cases h2 : e.hasResponse = true
      · have h1' : e.respHasData = false := by
          cases hrd : e.respHasData
          · rfl
          · exact absurd (by simp [h2, hrd]) h1
        simp [h1, h2, h1']
      · by_cases h3 : e.status.isSome = true
        · simp [h1, h2, h3]
        · by_cases h4 : (e.isNativeError
              && (e.name == "TypeError".data || e.name == "NetworkError".data)) = true
          · simp [h1, h2, h3, h4, hplain]
          · simp [h1, h2, h3, h4]
  · intro hnat
    unfold normalizeError at hnat
    by_cases h1 : (e.hasResponse && e.respHasData) = true
    · rw [if_pos h1] at hnat
      exact ⟨hnat, Or.inl h1⟩
    · rw [if_neg h1] at hnat
      by_cases h2 : e.hasResponse = true
      · rw [if_pos h2] at hnat
        simp at hnat
      · rw [if_neg h2] at hnat
        by_cases h3 : e.status.isSome = true
        · rw [if_pos h3] at hnat
          simp at hnat
        · rw [if_neg h3] at hnat
          by_cases h4 : (e.isNativeError
              && (e.name == "TypeError".data || e.name == "NetworkError".data)) = true
          · rw [if_pos h4] at hnat
            have h5 := Bool.and_eq_true_iff.mp h4
            exact ⟨h5.1, Or.inr h5.2⟩
          · rw [if_neg h4] at hnat
            simp at hnat

/-- Witness for the amended C9: the HTTP error object built from a 500
    response is plain, and normalizing a plain object keeps it plain. -/
theorem error_plainness_amended_witness :
    (mkHttpError "boom".data 500 "Internal Server Error".data).isNativeError = false
    ∧ (normalizeError (mkHttpError "boom".data 500
        "Internal Server Error".data)).isNativeError = false := by
  constructor
  · exact (error_plainness_amended "boom".data "Internal Server Error".data 500
      fetchTypeError).1
  · exact (error_plainness_amended "boom".data "Internal Server Error".data 500
      (mkHttpError "boom".data 500 "Internal Server Error".data)).2.2.1 rfl

/-! ### GET-body signing mismatch (C10)

`UniversalHttpClient.request` (src/unnamed/part_004, lines 54-63)
serializes `request.data` with `JSON.stringify` and feeds the result to
`getAuthHeaders` as the signed body string, while `fetchRequest` (lines
156-161) attaches the body to the outgoing fetch only when the method is
not GET. -/

inductive HttpMethod where
  | get
  | post
  | put
  | patch
  | delete
  | options
deriving DecidableEq

/-- Comma-join of rendered items. -/
def joinComma : List (List Char) → List Char
  | [] => []
  | [x] => x
  | x :: y :: rest => x ++ ',' :: joinComma (y :: rest)

/-- `JSON.stringify` on the JSON model (fuel bounds the depth; string
    escaping is not modelled — all example strings are escape-free). -/
def stringifyJ : Nat → Json → List Char
  | 0, _ => []
  | _ + 1, Json.null => "null".data
  | _ + 1, Json.jbool true => "true".data
  | _ + 1, Json.jbool false => "false".data
  | _ + 1, Json.num n =>
      if n < 0 then '-' :: ((decDigits (n.natAbs + 1) n.natAbs).map Char.ofNat)
      else (decDigits (n.toNat + 1) n.toNat).map Char.ofNat
  | _ + 1, Json.str s => '"' :: (s ++ ['"'])
  | fuel + 1, Json.arr items =>
      '[' :: (joinComma (items.map (stringifyJ fuel)) ++ [']'])
  | fuel + 1, Json.obj fields =>
      Char.ofNat 123 :: (joinComma (fields.map (fun kv =>
        '"' :: (kv.1 ++ '"' :: ':' :: stringifyJ fuel kv.2))) ++ [Char.ofNat 125])

structure DispatchPlan where
  signedBody : List Char
  wireBody : Option (List Char)

/-- The body handling of `UniversalHttpClient.request` + `fetchRequest`:
    `body = request.data ? JSON.stringify(request.data) : ''` is what the
    signing headers commit to, and `fetchOptions.body` is set only for
    non-GET methods. -/
def planRequest (fuel : Nat) (method : HttpMethod) (data : Option Json) :
    DispatchPlan :=
  let body := match data with
    | some d => stringifyJ fuel d
    | none => []
  { signedBody := body,
    wireBody := if method = HttpMethod.get then none else some body }

theorem decDigits_ne_nil (fuel n : Nat) : decDigits (fuel + 1) n ≠ [] := by
  unfold decDigits
  by_cases h : n < 10
  · simp [h]
  · rw [if_neg h]
    intro hc
    rcases List.append_eq_nil.mp hc with ⟨-, h2⟩
    exact absurd h2 (by simp)

theorem stringifyJ_ne_nil (fuel : Nat) (d : Json) :
    stringifyJ (fuel + 1) d ≠ [] := by
  cases d with
  | null => simp [stringifyJ]
  | jbool b => cases b <;> simp [stringifyJ]
  | num n =>
      unfold stringifyJ
      by_cases h : n < 0
      · simp [h]
      · rw [if_neg h]
        exact fun hc => absurd (List.map_eq_nil_iff.mp hc) (decDigits_ne_nil _ _)
  | str s => simp [stringifyJ]
  | arr items => simp [stringifyJ]
  | obj fields => simp [stringifyJ]

/-- C10: for a GET request carrying a data payload, the signing headers are
    computed over the JSON-serialized payload (a non-empty string), while
    the dispatched request carries no body at all — the signature commits
    to a body string that is never sent on the wire. -/
theorem get_signature_commits_to_unsent_body (fuel : Nat) (d : Json) :
    (planRequest (fuel + 1) HttpMethod.get (some d)).signedBody
        = stringifyJ (fuel + 1) d
    ∧ (planRequest (fuel + 1) HttpMethod.get (some d)).signedBody ≠ []
    ∧ (planRequest (fuel + 1) HttpMethod.get (some d)).wireBody = none
    ∧ (∀ method, method ≠ HttpMethod.get →
        (planRequest (fuel + 1) method (some d)).wireBody
          = some (stringifyJ (fuel + 1) d)) := by
  refine ⟨rfl, stringifyJ_ne_nil fuel d, rfl, ?_⟩
  intro method hm
  unfold planRequest
  dsimp only
  rw [if_neg hm]

/-- Witness for C10: with the payload `1`, a GET dispatch sends no body
    while a POST dispatch sends the serialized payload. -/
theorem get_signature_commits_witness :
    (planRequest 1 HttpMethod.get (some (Json.num 1))).wireBody = none
    ∧ (planRequest 1 HttpMethod.post (some (Json.num 1))).wireBody
        = some (stringifyJ 1 (Json.num 1)) :=
  ⟨(get_signature_commits_to_unsent_body 0 (Json.num 1)).2.2.1,
   (get_signature_commits_to_unsent_body 0 (Json.num 1)).2.2.2
     HttpMethod.post (by decide)⟩

end RmzSDK
